import Mathlib

/-!
Verification of the epitok attendance library.

Shallow embedding of the core modules (`src/student.rs`, `src/event.rs`,
`src/intra.rs`).  Network calls are modelled by passing the transport
outcome explicitly; `&mut` state is modelled by state passing (each
embedded function returns the new value of the data it mutates).
-/

deriving instance DecidableEq for Except

namespace Epitok

/-- Presence options for students (`student.rs`, enum `Presence`). -/
inductive Presence where
  | None
  | Present
  | Missing
  | NotApplicable
  | Failed
deriving DecidableEq, Repr

/-- Embeds `Presence::from(s: &str)` (`student.rs` lines 31-46): the match
on the wire string, with the lenient default arm mapping anything
unrecognized to `Failed`. (`from` is a Lean keyword, hence `fromString`.) -/
def Presence.fromString (s : String) : Presence :=
  match s with
  | "present" => Presence.Present
  | "Present" => Presence.Present
  | "absent" => Presence.Missing
  | "Missing" => Presence.Missing
  | "N/A" => Presence.NotApplicable
  | "NotApplicable" => Presence.NotApplicable
  | "failed" => Presence.Failed
  | "Failed" => Presence.Failed
  | "None" => Presence.None
  | _ => Presence.Failed

/-- Embeds `impl fmt::Display for Presence` (`student.rs` lines 48-59):
the wire string emitted for each variant. -/
def Presence.toWire : Presence → String
  | Presence.None => ""
  | Presence.Present => "present"
  | Presence.Missing => "absent"
  | Presence.NotApplicable => "N/A"
  | Presence.Failed => "failed"

/-- Embeds the presence-field decoding done at the fetch site
(`student.rs` lines 153-156): `student["present"].as_str()` yields
`Some` when the field is present and a string, and an absent/`null`
field maps to `Presence::None`. -/
def decodePresenceField : Option String → Presence
  | some p => Presence.fromString p
  | none => Presence.None

/-- Embeds struct `Student` (`student.rs` lines 65-72). -/
structure Student where
  login : String
  name : String
  presence : Presence
deriving DecidableEq, Repr

/-- Embeds `Student::set_presence` (`student.rs` lines 91-93). -/
def Student.set_presence (s : Student) (p : Presence) : Student :=
  { s with presence := p }

/-- Embeds struct `Code` (`event.rs` lines 59-65): the five components of
an event's identity code. -/
structure Code where
  year : String
  module : String
  «instance» : String
  acti : String
  event : String
deriving DecidableEq, Repr

/-- Embeds struct `Event` (`event.rs` lines 108-121). -/
structure Event where
  code : Code
  title : String
  module : String
  start : String
  «end» : String
  students : List Student
deriving DecidableEq, Repr

/-- Embeds the method `Event::code()` (`event.rs` lines 129-138), the URL
code `/module/{year}/{module}/{instance}/{acti}/{event}` (renamed since
the Lean field `code` takes the method's name). -/
def Event.codeString (e : Event) : String :=
  "/module/" ++ e.code.year ++ "/" ++ e.code.module ++ "/" ++
    e.code.«instance» ++ "/" ++ e.code.acti ++ "/" ++ e.code.event

/-- Helper embedding the body of `Event::set_student_presence`
(`event.rs` lines 186-196): `iter_mut().find(|s| s.get_login() == login)`
updates the first student whose login matches and reports whether one
was found. -/
def setFirstMatching : List Student → String → Presence → (List Student × Bool)
  | [], _, _ => ([], false)
  | s :: rest, login, p =>
    if s.login = login then (s.set_presence p :: rest, true)
    else
      let r := setFirstMatching rest login p
      (s :: r.1, r.2)

/-- Embeds `Event::set_student_presence` (`event.rs` lines 186-196);
returns the updated event and the `bool` the Rust method returns. -/
def Event.set_student_presence (e : Event) (login : String) (p : Presence) :
    Event × Bool :=
  let r := setFirstMatching e.students login p
  ({ e with students := r.1 }, r.2)

/-- Embeds `Event::set_all_students_presence` (`event.rs` lines 234-240):
the `for` loop sets every student's presence. -/
def Event.set_all_students_presence (e : Event) (p : Presence) : Event :=
  { e with students := e.students.map (fun s => s.set_presence p) }

/-- Embeds `Event::set_student_present` (`event.rs` lines 203-205). -/
def Event.set_student_present (e : Event) (login : String) : Event × Bool :=
  e.set_student_presence login Presence.Present

/-- Embeds `Event::set_student_missing` (`event.rs` lines 212-214). -/
def Event.set_student_missing (e : Event) (login : String) : Event × Bool :=
  e.set_student_presence login Presence.Missing

/-- Embeds `Event::set_student_none` (`event.rs` lines 221-223). -/
def Event.set_student_none (e : Event) (login : String) : Event × Bool :=
  e.set_student_presence login Presence.None

/-- Embeds `Event::set_student_not_applicable` (`event.rs` lines
230-232). -/
def Event.set_student_not_applicable (e : Event) (login : String) :
    Event × Bool :=
  e.set_student_presence login Presence.NotApplicable

/-- Embeds `Event::set_all_students_present` (`event.rs` lines
243-245). -/
def Event.set_all_students_present (e : Event) : Event :=
  e.set_all_students_presence Presence.Present

/-- Embeds `Event::set_all_students_missing` (`event.rs` lines
248-250). -/
def Event.set_all_students_missing (e : Event) : Event :=
  e.set_all_students_presence Presence.Missing

/-- Embeds `Event::set_all_students_none` (`event.rs` lines 253-255). -/
def Event.set_all_students_none (e : Event) : Event :=
  e.set_all_students_presence Presence.None

/-- Embeds `Event::set_all_students_not_applicable` (`event.rs` lines
258-260). -/
def Event.set_all_students_not_applicable (e : Event) : Event :=
  e.set_all_students_presence Presence.NotApplicable

/-- Helper embedding the loop of `Event::set_remaining_students_presence`
(`event.rs` lines 262-270): only students currently at `Presence::None`
are overwritten. -/
def setRemainingList (l : List Student) (p : Presence) : List Student :=
  l.map (fun s =>
    match s.presence with
    | Presence.None => s.set_presence p
    | _ => s)

/-- Embeds `Event::set_remaining_students_presence` (`event.rs` lines
262-270). -/
def Event.set_remaining_students_presence (e : Event) (p : Presence) : Event :=
  { e with students := setRemainingList e.students p }

/-- Embeds `Event::set_remaining_students_present` (`event.rs` lines
273-275). -/
def Event.set_remaining_students_present (e : Event) : Event :=
  e.set_remaining_students_presence Presence.Present

/-- Embeds `Event::set_remaining_students_missing` (`event.rs` lines
278-280). -/
def Event.set_remaining_students_missing (e : Event) : Event :=
  e.set_remaining_students_presence Presence.Missing

/-- Embeds `intra::Error` (`intra.rs` lines 10-23): the transport error
set. -/
inductive IntraError where
  | Network
  | AccessDenied
  | NotFound
  | IntraDown
  | Parsing
  | Empty
deriving DecidableEq, Repr

/-- Embeds the `std::collections::HashMap::insert` used by
`export_students`: replace the value when the key is present, otherwise
add the binding.  The map is represented as an association list without
duplicate keys. -/
def hmInsert (hm : List (String × String)) (k v : String) :
    List (String × String) :=
  if hm.any (fun kv => kv.1 = k) then
    hm.map (fun kv => if kv.1 = k then (k, v) else kv)
  else hm ++ [(k, v)]

/-- Lookup in the association-list model of the `HashMap`. -/
def hmGet (hm : List (String × String)) (k : String) : Option String :=
  (hm.find? (fun kv => kv.1 = k)).map (fun kv => kv.2)

/-- Helper embedding the loop of `Event::export_students` (`event.rs`
lines 305-320): for the student at position `i` insert the two entries
`items[i][login]` and `items[i][present]`. -/
def exportLoop : List Student → Nat → List (String × String) →
    List (String × String)
  | [], _, hm => hm
  | s :: rest, i, hm =>
    let hm1 := hmInsert hm ("items[" ++ toString i ++ "][login]") s.login
    let hm2 := hmInsert hm1 ("items[" ++ toString i ++ "][present]")
      s.presence.toWire
    exportLoop rest (i + 1) hm2

/-- Embeds `Event::export_students` (`event.rs` lines 305-320). -/
def Event.export_students (e : Event) : List (String × String) :=
  exportLoop e.students 0 []

/-- Embeds `Event::save_changes` (`event.rs` lines 328-336) together
with `intra::update_presences` (`intra.rs` lines 115-142): the method
exports the roster and performs one form-encoded POST.  The observable
outcome is modelled as the POSTed URL and form mapping, paired with the
state of the event after the call (the body mutates nothing). -/
def Event.save_changes (e : Event) (autologin : String) :
    (String × List (String × String)) × Event :=
  ((autologin ++ e.codeString ++ "/updateregistered?format=json",
    e.export_students), e)

/-- Embeds `student::Error` (`student.rs` lines 98-103). -/
inductive StudentError where
  | Login
  | Name
deriving DecidableEq, Repr

/-- The `Box<dyn error::Error>` returned by `fetch_students` holds
either a transport error or a student parse error. -/
inductive FetchError where
  | intra (e : IntraError)
  | student (e : StudentError)
deriving DecidableEq, Repr

/-- Raw JSON record of one registered student, as observed by
`fetch_students` (`student.rs` lines 142-156): each field access is
`student[k].as_str()`, so a field is modelled as `some s` when present
and a string, `none` otherwise. -/
structure RawStudent where
  login : Option String
  title : Option String
  present : Option String
deriving DecidableEq, Repr

/-- Helper embedding the loop of `fetch_students` (`student.rs` lines
142-165): parse each record, with an early `return Err` when a login or
a name is missing; the accumulator is the vector being pushed into and
the counter is `number_students`. -/
def fetchLoop : List RawStudent → List Student → Nat →
    Except FetchError Nat × List Student
  | [], acc, n => (Except.ok n, acc)
  | r :: rest, acc, n =>
    match r.login with
    | none => (Except.error (FetchError.student StudentError.Login), acc)
    | some login =>
      match r.title with
      | none => (Except.error (FetchError.student StudentError.Name), acc)
      | some name =>
        fetchLoop rest
          (acc ++ [{ login := login, name := name,
                     presence := decodePresenceField r.present }]) (n + 1)

/-- Embeds `fetch_students` (`student.rs` lines 118-168).  The transport
call `intra::get_array_obj` is modelled by the `response` argument.  The
Rust function returns early on a transport error (treating `Empty` as
`Ok(0)`) while the vector is still untouched; only after a successful
fetch does it clear the vector and parse the records. -/
def fetch_students (list : List Student)
    (response : Except IntraError (List RawStudent)) :
    Except FetchError Nat × List Student :=
  match response with
  | Except.error e =>
    match e with
    | IntraError.Empty => (Except.ok 0, list)
    | _ => (Except.error (FetchError.intra e), list)
  | Except.ok json =>
    fetchLoop json [] 0

/-- Embeds `Event::fetch_students` (`event.rs` lines 286-293): delegates
to `student::fetch_students` on the event's own vector. -/
def Event.fetch_students (e : Event)
    (response : Except IntraError (List RawStudent)) :
    Except FetchError Nat × Event :=
  let r := Epitok.fetch_students e.students response
  (r.1, { e with students := r.2 })

/-- Gregorian leap-year rule, part of the model of the `chrono` date
parser used by `list_events` and `parse_time`. -/
def isLeapYear (y : Nat) : Bool :=
  (y % 4 = 0 && y % 100 != 0) || y % 400 = 0

/-- Days in a month of the proleptic Gregorian calendar. -/
def daysInMonth (y m : Nat) : Nat :=
  if m = 2 then (if isLeapYear y then 29 else 28)
  else if m = 4 || m = 6 || m = 9 || m = 11 then 30
  else 31

/-- Split a character list at every occurrence of the separator, the
accumulator holding the current field reversed. -/
def splitOnCharAux (c : Char) : List Char → List Char → List (List Char)
  | [], cur => [cur.reverse]
  | x :: rest, cur =>
    if x = c then cur.reverse :: splitOnCharAux c rest []
    else splitOnCharAux c rest (x :: cur)

/-- Split a character list on a separator character (the computable
counterpart of splitting a string on a one-character separator). -/
def splitOnChar (c : Char) (l : List Char) : List (List Char) :=
  splitOnCharAux c l []

/-- Read a non-empty all-digit character list as a number. -/
def digitsToNat (l : List Char) : Option Nat :=
  if !l.isEmpty && l.all Char.isDigit then
    some (l.foldl (fun a c => a * 10 + (c.toNat - 48)) 0)
  else none

/-- Model of `chrono::NaiveDate::parse_from_str(s, "%Y-%m-%d")`
(`event.rs` line 445): a four-digit year, a month and a day, dash
separated, forming a valid Gregorian calendar date. -/
def parseDateYMD (s : String) : Option (Nat × Nat × Nat) :=
  match splitOnChar '-' s.toList with
  | [y, m, d] =>
    match digitsToNat y, digitsToNat m, digitsToNat d with
    | some yn, some mn, some dn =>
      if y.length = 4 ∧ 1 ≤ mn ∧ mn ≤ 12 ∧ 1 ≤ dn ∧ dn ≤ daysInMonth yn mn
      then some (yn, mn, dn) else none
    | _, _, _ => none
  | _ => none

/-- Model of the time-of-day part `"%H:%M:%S"` of the `chrono` format
used by `parse_time`. -/
def parseTimeHMS (s : List Char) : Option (Nat × Nat × Nat) :=
  match splitOnChar ':' s with
  | [h, m, sec] =>
    match digitsToNat h, digitsToNat m, digitsToNat sec with
    | some hn, some mn, some sn =>
      if hn ≤ 23 ∧ mn ≤ 59 ∧ sn ≤ 60 then some (hn, mn, sn) else none
    | _, _, _ => none
  | _ => none

/-- Zero-pad a number below 100 to two digits, as `chrono`'s `%H`/`%M`
formatting does. -/
def pad2 (n : Nat) : String :=
  if n < 10 then "0" ++ toString n else toString n

/-- Model of `chrono::NaiveDateTime::parse_from_str(s,
"%Y-%m-%d %H:%M:%S")` followed by `.format("%H:%M")` (`event.rs` lines
386-388): the date-time must parse, and only the zero-padded hour and
minute are retained. -/
def parseDateTimeToHM (s : String) : Option String :=
  match splitOnChar ' ' s.toList with
  | [d, t] =>
    match parseDateYMD (String.mk d), parseTimeHMS t with
    | some _, some hms => some (pad2 hms.1 ++ ":" ++ pad2 hms.2.1)
    | _, _ => none
  | _ => none

/-- Embeds `event::Error` (`event.rs` lines 341-352). -/
inductive EventError where
  | EventURL
  | Title
  | Module
  | TimeStart
  | TimeEnd
deriving DecidableEq, Repr

/-- Embeds enum `Time` (`event.rs` lines 371-376). -/
inductive Time where
  | Start
  | End
deriving DecidableEq, Repr

/-- Raw JSON record of one planning event, as observed by `list_events`
(`event.rs` lines 471-504): every access is `event[k].as_str()`, so each
field is `some s` when present and a string, `none` otherwise. -/
structure RawEvent where
  is_rdv : Option String
  scolaryear : Option String
  codemodule : Option String
  codeinstance : Option String
  codeacti : Option String
  codeevent : Option String
  acti_title : Option String
  titlemodule : Option String
  start : Option String
  «end» : Option String
deriving DecidableEq, Repr

/-- Embeds `parse_time` (`event.rs` lines 379-392): pick the `start` or
`end` field and parse it as a date-time, keeping `HH:MM`. -/
def parse_time (j : RawEvent) (t : Time) : Option String :=
  let field := match t with
    | Time.Start => j.start
    | Time.End => j.«end»
  match field with
  | some s => parseDateTimeToHM s
  | none => none

/-- Embeds `construct_code` (`event.rs` lines 395-404): all five
components must be present. -/
def construct_code (j : RawEvent) : Option Code :=
  match j.scolaryear, j.codemodule, j.codeinstance, j.codeacti,
      j.codeevent with
  | some y, some m, some i, some a, some e =>
    some { year := y, module := m, «instance» := i, acti := a, event := e }
  | _, _, _, _, _ => none

/-- Outcome of processing one raw record in the loop of `list_events`. -/
inductive Step where
  | skip
  | err (e : EventError)
  | evt (ev : Event)
deriving DecidableEq, Repr

/-- Embeds the body of the `for event in &json` loop of `list_events`
(`event.rs` lines 471-515): skip records whose `is_rdv` marker is absent
or differs from `"0"`, then extract code, title, module, start and end
with an early error return, and otherwise build an `Event` with an empty
roster (no roster fetch happens during listing). -/
def parse_event (j : RawEvent) : Step :=
  match j.is_rdv with
  | some v =>
    if v = "0" then
      match construct_code j with
      | none => Step.err EventError.EventURL
      | some code =>
        match j.acti_title with
        | none => Step.err EventError.Title
        | some title =>
          match j.titlemodule with
          | none => Step.err EventError.Module
          | some module =>
            match parse_time j Time.Start with
            | none => Step.err EventError.TimeStart
            | some start =>
              match parse_time j Time.End with
              | none => Step.err EventError.TimeEnd
              | some e =>
                Step.evt { code := code, title := title, module := module,
                           start := start, «end» := e, students := [] }
    else Step.skip
  | none => Step.skip

/-- The `Box<dyn error::Error>` returned by `list_events` holds a date
parse error, a transport error, or an event construction error. -/
inductive ListError where
  | DateParse
  | intra (e : IntraError)
  | event (e : EventError)
deriving DecidableEq, Repr

/-- Embeds the loop of `list_events` (`event.rs` lines 469-518): fold
`parse_event` over the raw records, pushing events into the list and
counting them in `number_events`, with the early `return Err` leaving
the list holding what was pushed so far. -/
def processEvents : List RawEvent → List Event → Nat →
    Except ListError Nat × List Event
  | [], list, n => (Except.ok n, list)
  | j :: rest, list, n =>
    match parse_event j with
    | Step.skip => processEvents rest list n
    | Step.err e => (Except.error (ListError.event e), list)
    | Step.evt ev => processEvents rest (list ++ [ev]) (n + 1)

/-- Embeds `list_events` (`event.rs` lines 439-521).  The transport call
`intra::get_array_obj` is modelled by the `response` argument.  Order of
operations as in the source: validate the date (returning with the list
untouched on failure), clear the list, fetch (treating `Empty` as
`Ok(0)` and propagating any other transport error), then process the
records. -/
def list_events (list : List Event) (raw_date : String)
    (response : Except IntraError (List RawEvent)) :
    Except ListError Nat × List Event :=
  match parseDateYMD raw_date with
  | none => (Except.error ListError.DateParse, list)
  | some _ =>
    match response with
    | Except.error e =>
      match e with
      | IntraError.Empty => (Except.ok 0, [])
      | _ => (Except.error (ListError.intra e), [])
    | Except.ok json => processEvents json [] 0

/-! Concrete fixtures used by counterexamples and witnesses. -/

/-- A concrete five-component event code. -/
def evCode : Code :=
  { year := "2020", module := "X-XXX-000", «instance» := "XXX-0-0",
    acti := "acti-000000", event := "event-000000" }

/-- The three-student roster of the specification's save scenario:
`a@x` Present, `b@x` undecided, `c@x` Missing, in that order. -/
def ev3 : Event :=
  { code := evCode, title := "T", module := "M",
    start := "10:00", «end» := "12:00",
    students := [{ login := "a@x", name := "A", presence := Presence.Present },
                 { login := "b@x", name := "B", presence := Presence.None },
                 { login := "c@x", name := "C", presence := Presence.Missing }] }

/-! Claim C3: round trip of the wire encoding. -/

/-- Claim C3, counterexample: the claim includes the empty string among
the round-tripping wire strings, but `Presence::from("")` falls through
to the lenient default arm and yields `Failed`, which encodes as
`"failed"`, not `""`. -/
theorem c3_counterexample :
    Presence.toWire (Presence.fromString "") = "failed" ∧
    ("failed" : String) ≠ "" := by
  decide

/-- Claim C3, amended: `encode(decode(s)) = s` holds for the four
non-empty canonical wire strings; decoding an absent/`null` presence
field (done at the fetch site) yields `Presence::None`; the empty
string itself decodes leniently to `Failed`. -/
theorem c3_roundtrip_amended :
    Presence.toWire (Presence.fromString "present") = "present" ∧
    Presence.toWire (Presence.fromString "absent") = "absent" ∧
    Presence.toWire (Presence.fromString "N/A") = "N/A" ∧
    Presence.toWire (Presence.fromString "failed") = "failed" ∧
    decodePresenceField none = Presence.None ∧
    Presence.fromString "" = Presence.Failed := by
  decide

/-! Claim C7: idempotence of `set_remaining`. -/

/-- Auxiliary: one pass of `set_remaining` on the list level is
idempotent. -/
theorem setRemainingList_idem (l : List Student) (p : Presence) :
    setRemainingList (setRemainingList l p) p = setRemainingList l p := by
  induction l with
  | nil => rfl
  | cons s rest ih =>
    simp only [setRemainingList, List.map_cons, List.map] at ih ⊢
    refine congrArg₂ List.cons ?_ ih
    cases hs : s.presence <;> cases p <;>
      simp [Student.set_presence, hs]

/-- Claim C7: `set_remaining(X)` is idempotent — applying it twice to an
event yields the same roster as applying it once. -/
theorem c7_set_remaining_idempotent (e : Event) (p : Presence) :
    (e.set_remaining_students_presence p).set_remaining_students_presence p
      = e.set_remaining_students_presence p := by
  simp only [Event.set_remaining_students_presence]
  exact congrArg _ (setRemainingList_idem e.students p)

/-! Claim C4: `set_all(X)` then `set_remaining(Y)`. -/

/-- Claim C4, counterexample: with `X = None` and `Y = Present`,
`set_all(None)` puts every student at `None`, so `set_remaining(Present)`
overwrites them all with `Present` — the roster is not left at `X`. -/
theorem c4_counterexample :
    ((ev3.set_all_students_presence Presence.None).set_remaining_students_presence
        Presence.Present).students.map Student.presence
      = [Presence.Present, Presence.Present, Presence.Present] ∧
    Presence.Present ≠ Presence.None := by
  decide

/-- Claim C4, amended: provided `X ≠ None`, applying `set_all(X)` and
then `set_remaining(Y)` leaves every student's presence equal to `X`. -/
theorem c4_amended (e : Event) (X Y : Presence) (hX : X ≠ Presence.None) :
    ((e.set_all_students_presence X).set_remaining_students_presence Y).students.map
        Student.presence
      = e.students.map (fun _ => X) := by
  simp only [Event.set_all_students_presence,
    Event.set_remaining_students_presence, setRemainingList, List.map_map]
  refine List.map_congr_left (fun s _ => ?_)
  cases X
  · exact absurd rfl hX
  all_goals simp [Student.set_presence]

/-- Witness for C4 at a concrete roster (`X = Present`, `Y = Missing`). -/
theorem c4_amended_witness :
    ((ev3.set_all_students_presence Presence.Present).set_remaining_students_presence
        Presence.Missing).students.map Student.presence
      = ev3.students.map (fun _ => Presence.Present) :=
  c4_amended ev3 Presence.Present Presence.Missing (by decide)

/-! Claim C1: what `save` uploads. -/

/-- Claim C1, counterexample: `save_changes` does not apply
`set_remaining(Missing)` before encoding — the roster is exported as it
stands, so the undecided student `b@x` is uploaded with the wire value
of `None` (the empty string), not `"absent"`. -/
theorem c1_counterexample :
    hmGet (ev3.save_changes "auto").1.2 "items[1][present]" = some "" ∧
    (some "" : Option String) ≠ some "absent" := by
  decide

/-- Claim C1, amended: `save_changes` leaves the event untouched (it
applies no `set_remaining`) and uploads exactly the encoding of the
roster as it stands, in one form-encoded POST to the URL built from the
credential and the event code.  For the three-student roster `a@x`
(Present), `b@x` (None), `c@x` (Missing) the mapping has exactly six
entries — a login entry and a presence entry per student at positional
indices 0..2 in roster order — and `b@x`'s presence entry carries the
wire value of `None`, the empty string. -/
theorem c1_amended :
    (∀ (e : Event) (a : String), (e.save_changes a).2 = e) ∧
    (∀ (e : Event) (a : String), (e.save_changes a).1.2 = e.export_students) ∧
    (ev3.save_changes "auto").1.1
      = "auto/module/2020/X-XXX-000/XXX-0-0/acti-000000/event-000000/updateregistered?format=json" ∧
    (ev3.save_changes "auto").1.2.length = 6 ∧
    hmGet (ev3.save_changes "auto").1.2 "items[0][login]" = some "a@x" ∧
    hmGet (ev3.save_changes "auto").1.2 "items[0][present]" = some "present" ∧
    hmGet (ev3.save_changes "auto").1.2 "items[1][login]" = some "b@x" ∧
    hmGet (ev3.save_changes "auto").1.2 "items[1][present]" = some "" ∧
    hmGet (ev3.save_changes "auto").1.2 "items[2][login]" = some "c@x" ∧
    hmGet (ev3.save_changes "auto").1.2 "items[2][present]" = some "absent" :=
  ⟨fun e a => rfl, fun e a => rfl, by decide⟩

/-! Claim C2: effect of a failed roster fetch on the event. -/

/-- A raw student record that parses. -/
def rsGood : RawStudent :=
  { login := some "g@x", title := some "G", present := some "present" }

/-- A raw student record missing its login. -/
def rsBad : RawStudent :=
  { login := none, title := some "B", present := none }

/-- An event whose roster already holds one student. -/
def evC2 : Event :=
  { code := evCode, title := "T", module := "M",
    start := "10:00", «end» := "12:00",
    students := [{ login := "old@x", name := "Old",
                   presence := Presence.Present }] }

/-- Claim C2, counterexample: a roster fetch whose response contains a
record missing its login fails, yet the event's student list has been
cleared and partially repopulated — it holds the one record parsed
before the failure instead of its previous contents. -/
theorem c2_counterexample :
    (evC2.fetch_students (Except.ok [rsGood, rsBad])).1
      = Except.error (FetchError.student StudentError.Login) ∧
    (evC2.fetch_students (Except.ok [rsGood, rsBad])).2.students
      = [{ login := "g@x", name := "G", presence := Presence.Present }] ∧
    ([{ login := "g@x", name := "G", presence := Presence.Present }]
      : List Student) ≠ evC2.students := by
  decide

/-- Claim C2, amended: a roster fetch that fails with a transport error
other than `Empty` leaves the event's student list unchanged, and an
`Empty` response succeeds with count 0 leaving the list unchanged; but
once the response body parses, the previous contents are discarded and
the final list is determined by the response alone — so a record-level
failure (missing login or name) leaves the event holding exactly the
students parsed before the failing record, a partially-populated
roster. -/
theorem c2_amended (e e' : Event) (err : IntraError)
    (herr : err ≠ IntraError.Empty) (rs : List RawStudent) :
    e.fetch_students (Except.error err)
      = (Except.error (FetchError.intra err), e) ∧
    e.fetch_students (Except.error IntraError.Empty) = (Except.ok 0, e) ∧
    (e.fetch_students (Except.ok rs)).1 = (e'.fetch_students (Except.ok rs)).1 ∧
    (e.fetch_students (Except.ok rs)).2.students
      = (e'.fetch_students (Except.ok rs)).2.students := by
  refine ⟨?_, rfl, rfl, rfl⟩
  cases err
  case Empty => exact absurd rfl herr
  all_goals rfl

/-- Witness for C2 at concrete inputs. -/
theorem c2_amended_witness :
    evC2.fetch_students (Except.error IntraError.Network)
      = (Except.error (FetchError.intra IntraError.Network), evC2) ∧
    evC2.fetch_students (Except.error IntraError.Empty) = (Except.ok 0, evC2) ∧
    (evC2.fetch_students (Except.ok [rsGood, rsBad])).1
      = (ev3.fetch_students (Except.ok [rsGood, rsBad])).1 ∧
    (evC2.fetch_students (Except.ok [rsGood, rsBad])).2.students
      = (ev3.fetch_students (Except.ok [rsGood, rsBad])).2.students :=
  c2_amended evC2 ev3 IntraError.Network (by decide) [rsGood, rsBad]

/-! Claim C10: replace-not-append behaviour of the two list-filling
operations. -/

/-- Auxiliary: the fetch loop's student counter advances in lockstep
with the vector it pushes into. -/
theorem fetchLoop_ok_count (rs : List RawStudent) :
    ∀ (acc : List Student) (n m : Nat) (l : List Student),
      fetchLoop rs acc n = (Except.ok m, l) → m + acc.length = n + l.length := by
  induction rs with
  | nil =>
    intro acc n m l h
    simp only [fetchLoop, Prod.mk.injEq, Except.ok.injEq] at h
    obtain ⟨h1, h2⟩ := h
    subst h1; subst h2; rfl
  | cons r rest ih =>
    intro acc n m l h
    cases hl : r.login with
    | none => simp [fetchLoop, hl] at h
    | some login =>
      cases ht : r.title with
      | none => simp [fetchLoop, hl, ht] at h
      | some name =>
        have hstep : fetchLoop (r :: rest) acc n
            = fetchLoop rest
                (acc ++ [{ login := login, name := name,
                           presence := decodePresenceField r.present }])
                (n + 1) := by
          simp [fetchLoop, hl, ht]
        rw [hstep] at h
        have := ih _ _ _ _ h
        simp only [List.length_append, List.length_cons, List.length_nil] at this
        omega

/-- Auxiliary: the event loop's counter advances in lockstep with the
list it pushes into. -/
theorem processEvents_ok_count (js : List RawEvent) :
    ∀ (list : List Event) (n m : Nat) (l : List Event),
      processEvents js list n = (Except.ok m, l) →
        m + list.length = n + l.length := by
  induction js with
  | nil =>
    intro list n m l h
    simp only [processEvents, Prod.mk.injEq, Except.ok.injEq] at h
    obtain ⟨h1, h2⟩ := h
    subst h1; subst h2; rfl
  | cons j rest ih =>
    intro list n m l h
    cases hpe : parse_event j with
    | skip =>
      have hstep : processEvents (j :: rest) list n = processEvents rest list n := by
        simp [processEvents, hpe]
      rw [hstep] at h
      exact ih _ _ _ _ h
    | err e => simp [processEvents, hpe] at h
    | evt ev =>
      have hstep : processEvents (j :: rest) list n
          = processEvents rest (list ++ [ev]) (n + 1) := by
        simp [processEvents, hpe]
      rw [hstep] at h
      have := ih _ _ _ _ h
      simp only [List.length_append, List.length_cons, List.length_nil] at this
      omega

/-- Claim C10, counterexample: `fetch_students` on a transport `Empty`
response returns success with count 0 but does not discard the previous
contents — the roster keeps its stale student and the returned count
differs from the list's length. -/
theorem c10_counterexample :
    evC2.fetch_students (Except.error IntraError.Empty)
      = (Except.ok 0, evC2) ∧
    evC2.students.length = 1 ∧ (0 : Nat) ≠ 1 := by
  decide

/-- Claim C10, amended: a successful `list_events` call always leaves
the list holding exactly the entries built from this call's response
(independent of prior contents once the date parses) with the returned
count equal to the new length; `fetch_students` does the same whenever
the response body was actually fetched and parsed, but on a transport
`Empty` response it returns count 0 while leaving the previous contents
untouched. -/
theorem c10_amended (prior : List Event) (d : String)
    (resp : Except IntraError (List RawEvent)) (n : Nat) (l : List Event)
    (sl sl' : List Student) (rs : List RawStudent) (m : Nat)
    (l2 : List Student) (hd : parseDateYMD d ≠ none) :
    (list_events prior d resp = (Except.ok n, l) → n = l.length) ∧
    (list_events prior d resp = list_events [] d resp) ∧
    (fetch_students sl (Except.ok rs) = (Except.ok m, l2) → m = l2.length) ∧
    (fetch_students sl (Except.ok rs) = fetch_students sl' (Except.ok rs)) ∧
    (fetch_students sl (Except.error IntraError.Empty) = (Except.ok 0, sl)) := by
  obtain ⟨dv, hdv⟩ := Option.ne_none_iff_exists'.mp hd
  refine ⟨?_, ?_, ?_, rfl, rfl⟩
  · intro h
    simp only [list_events, hdv] at h
    cases resp with
    | error e =>
      cases e <;> simp_all
    | ok json =>
      have := processEvents_ok_count json [] 0 n l h
      simpa using this
  · simp only [list_events, hdv]
  · intro h
    simp only [fetch_students] at h
    have := fetchLoop_ok_count rs [] 0 m l2 h
    simpa using this

/-- Witness for C10 at concrete inputs. -/
theorem c10_amended_witness :
    (list_events [ev3] "2020-06-30" (Except.ok []) = (Except.ok 0, []) →
      (0 : Nat) = ([] : List Event).length) ∧
    (list_events [ev3] "2020-06-30" (Except.ok [])
      = list_events [] "2020-06-30" (Except.ok [])) ∧
    (fetch_students evC2.students (Except.ok [rsGood])
        = (Except.ok 1, [{ login := "g@x", name := "G",
                           presence := Presence.Present }]) →
      (1 : Nat) = ([{ login := "g@x", name := "G",
                      presence := Presence.Present }] : List Student).length) ∧
    (fetch_students evC2.students (Except.ok [rsGood])
      = fetch_students ev3.students (Except.ok [rsGood])) ∧
    (fetch_students evC2.students (Except.error IntraError.Empty)
      = (Except.ok 0, evC2.students)) :=
  c10_amended [ev3] "2020-06-30" (Except.ok []) 0 []
    evC2.students ev3.students [rsGood] 1
    [{ login := "g@x", name := "G", presence := Presence.Present }]
    (by decide)

/-! Claim C6: the transport `Empty` outcome collapses to an empty
success, other transport errors propagate. -/

/-- Claim C6: with a well-formed date, a transport `Empty` outcome makes
`list_events` return success with zero events and an empty list, while
every other transport error is propagated as an error to the caller. -/
theorem c6_empty_collapses (prior : List Event) (d : String)
    (hd : parseDateYMD d ≠ none) :
    list_events prior d (Except.error IntraError.Empty)
      = (Except.ok 0, []) ∧
    (∀ e : IntraError, e ≠ IntraError.Empty →
      list_events prior d (Except.error e)
        = (Except.error (ListError.intra e), [])) := by
  obtain ⟨dv, hdv⟩ := Option.ne_none_iff_exists'.mp hd
  refine ⟨by simp [list_events, hdv], fun e he => ?_⟩
  cases e
  case Empty => exact absurd rfl he
  all_goals simp [list_events, hdv]

/-- Witness for C6 on a concrete date and prior list. -/
theorem c6_empty_collapses_witness :
    list_events [ev3] "2020-06-30" (Except.error IntraError.Empty)
      = (Except.ok 0, []) ∧
    (∀ e : IntraError, e ≠ IntraError.Empty →
      list_events [ev3] "2020-06-30" (Except.error e)
        = (Except.error (ListError.intra e), [])) :=
  c6_empty_collapses [ev3] "2020-06-30" (by decide)

/-! Claim C8: ineligible records are skipped silently. -/

/-- Unfolding equation for one step of the event loop. -/
theorem processEvents_cons (x : RawEvent) (rest : List RawEvent)
    (list : List Event) (n : Nat) :
    processEvents (x :: rest) list n =
      match parse_event x with
      | Step.skip => processEvents rest list n
      | Step.err e => (Except.error (ListError.event e), list)
      | Step.evt ev => processEvents rest (list ++ [ev]) (n + 1) := rfl

/-- Claim C8: a raw record whose `is_rdv` marker is present but differs
from `"0"` never becomes an `Event` and is skipped without error —
removing it from the response leaves the outcome of the listing loop
unchanged, wherever it sits in the response. -/
theorem c8_ineligible_skipped (xs ys : List RawEvent) (r : RawEvent)
    (list : List Event) (n : Nat) (v : String)
    (hv : r.is_rdv = some v) (hne : v ≠ "0") :
    parse_event r = Step.skip ∧
    processEvents (xs ++ r :: ys) list n = processEvents (xs ++ ys) list n := by
  have hskip : parse_event r = Step.skip := by
    simp [parse_event, hv, hne]
  refine ⟨hskip, ?_⟩
  induction xs generalizing list n with
  | nil =>
    simp only [List.nil_append]
    rw [processEvents_cons, hskip]
  | cons x xs ih =>
    simp only [List.cons_append]
    rw [processEvents_cons, processEvents_cons]
    cases parse_event x with
    | skip => exact ih list n
    | err e => rfl
    | evt ev => exact ih (list ++ [ev]) (n + 1)

/-- A raw record whose eligibility marker is present and false
(`is_rdv = "1"`). -/
def rIneligible : RawEvent :=
  { is_rdv := some "1", scolaryear := none, codemodule := none,
    codeinstance := none, codeacti := none, codeevent := none,
    acti_title := none, titlemodule := none, start := none, «end» := none }

/-- Witness for C8: the ineligible record contributes nothing. -/
theorem c8_ineligible_skipped_witness :
    parse_event rIneligible = Step.skip ∧
    processEvents ([] ++ rIneligible :: []) [] 0
      = processEvents ([] ++ []) [] 0 :=
  c8_ineligible_skipped [] [] rIneligible [] 0 "1" rfl (by decide)

/-! Claim C5: event construction fails with the error naming the missing
field, and an error produces no `Event`.  During listing no roster is
ever fetched: every constructed event carries an empty `students` list
(see `parse_event`), so a record that errors out a fortiori triggers no
roster fetch. -/

/-- Claim C5: for a token-eligible raw record, construction fails with
`EventURL` when any of the five code components is absent; with `Title`
(resp. `Module`) when the title (resp. the module label) is absent; with
`TimeStart`/`TimeEnd` when the start/end field is absent or unparsable;
and a record that fails stops the listing loop with that error, pushing
no `Event` into the list. -/
theorem c5_missing_field_errors (r : RawEvent) (rest : List RawEvent)
    (list : List Event) (n : Nat) (helig : r.is_rdv = some "0") :
    ((r.scolaryear = none ∨ r.codemodule = none ∨ r.codeinstance = none ∨
        r.codeacti = none ∨ r.codeevent = none) →
      parse_event r = Step.err EventError.EventURL) ∧
    (construct_code r ≠ none → r.acti_title = none →
      parse_event r = Step.err EventError.Title) ∧
    (construct_code r ≠ none → r.acti_title ≠ none → r.titlemodule = none →
      parse_event r = Step.err EventError.Module) ∧
    (construct_code r ≠ none → r.acti_title ≠ none → r.titlemodule ≠ none →
      parse_time r Time.Start = none →
      parse_event r = Step.err EventError.TimeStart) ∧
    (construct_code r ≠ none → r.acti_title ≠ none → r.titlemodule ≠ none →
      parse_time r Time.Start ≠ none → parse_time r Time.End = none →
      parse_event r = Step.err EventError.TimeEnd) ∧
    (∀ e : EventError, parse_event r = Step.err e →
      processEvents (r :: rest) list n
        = (Except.error (ListError.event e), list)) := by
  refine ⟨?_, ?_, ?_, ?_, ?_, ?_⟩
  · intro h
    have hcc : construct_code r = none := by
      rcases hsy : r.scolaryear with _ | y <;>
        rcases hcm : r.codemodule with _ | m <;>
        rcases hci : r.codeinstance with _ | i <;>
        rcases hca : r.codeacti with _ | a <;>
        rcases hce : r.codeevent with _ | e <;>
        simp_all [construct_code]
    simp [parse_event, helig, hcc]
  · intro hcc htitle
    rcases hc : construct_code r with _ | c
    · exact absurd hc hcc
    · simp [parse_event, helig, hc, htitle]
  · intro hcc htitle hmod
    rcases hc : construct_code r with _ | c
    · exact absurd hc hcc
    rcases ht : r.acti_title with _ | t
    · exact absurd ht htitle
    simp [parse_event, helig, hc, ht, hmod]
  · intro hcc htitle hmod hstart
    rcases hc : construct_code r with _ | c
    · exact absurd hc hcc
    rcases ht : r.acti_title with _ | t
    · exact absurd ht htitle
    rcases hm : r.titlemodule with _ | m
    · exact absurd hm hmod
    simp [parse_event, helig, hc, ht, hm, hstart]
  · intro hcc htitle hmod hstart hend
    rcases hc : construct_code r with _ | c
    · exact absurd hc hcc
    rcases ht : r.acti_title with _ | t
    · exact absurd ht htitle
    rcases hm : r.titlemodule with _ | m
    · exact absurd hm hmod
    rcases hs : parse_time r Time.Start with _ | s
    · exact absurd hs hstart
    simp [parse_event, helig, hc, ht, hm, hs, hend]
  · intro e he
    rw [processEvents_cons, he]

/-- A raw record that is complete except for its missing `end` field. -/
def rC5 : RawEvent :=
  { is_rdv := some "0", scolaryear := some "2020",
    codemodule := some "X-XXX-000", codeinstance := some "XXX-0-0",
    codeacti := some "acti-000000", codeevent := some "event-000000",
    acti_title := some "T", titlemodule := some "M",
    start := some "2020-06-30 10:00:00", «end» := none }

/-- Witness for C5 at the record missing only its `end` field: the
instantiated error mapping, from which the `TimeEnd` case fires. -/
theorem c5_missing_field_errors_witness :
    ((rC5.scolaryear = none ∨ rC5.codemodule = none ∨
        rC5.codeinstance = none ∨ rC5.codeacti = none ∨
        rC5.codeevent = none) →
      parse_event rC5 = Step.err EventError.EventURL) ∧
    (construct_code rC5 ≠ none → rC5.acti_title = none →
      parse_event rC5 = Step.err EventError.Title) ∧
    (construct_code rC5 ≠ none → rC5.acti_title ≠ none →
      rC5.titlemodule = none →
      parse_event rC5 = Step.err EventError.Module) ∧
    (construct_code rC5 ≠ none → rC5.acti_title ≠ none →
      rC5.titlemodule ≠ none → parse_time rC5 Time.Start = none →
      parse_event rC5 = Step.err EventError.TimeStart) ∧
    (construct_code rC5 ≠ none → rC5.acti_title ≠ none →
      rC5.titlemodule ≠ none → parse_time rC5 Time.Start ≠ none →
      parse_time rC5 Time.End = none →
      parse_event rC5 = Step.err EventError.TimeEnd) ∧
    (∀ e : EventError, parse_event rC5 = Step.err e →
      processEvents (rC5 :: []) [] 0
        = (Except.error (ListError.event e), [])) :=
  c5_missing_field_errors rC5 [] [] 0 rfl

/-- Companion fact checked directly on the concrete record: the missing
`end` field makes `parse_event` fail with the `TimeEnd` error, the
listing loop stops with it, and no `Event` enters the list. -/
theorem c5_concrete_time_end :
    parse_event rC5 = Step.err EventError.TimeEnd ∧
    processEvents [rC5] [] 0
      = (Except.error (ListError.event EventError.TimeEnd), []) := by
  decide

/-! Claim C9: the roster mutators are frame-preserving. -/

/-- Auxiliary: a pointwise-true check passes on the diagonal zip. -/
theorem zip_self_all (l : List Student) (f : Student × Student → Bool)
    (hf : ∀ x, f (x, x) = true) : (l.zip l).all f = true := by
  induction l with
  | nil => rfl
  | cons s rest ih => simp [List.zip_cons_cons, hf, ih]

/-- Auxiliary: no pair of the diagonal zip has distinct components. -/
theorem zip_self_filter_ne (l : List Student) :
    (l.zip l).filter (fun q => decide (q.1 ≠ q.2)) = [] := by
  induction l with
  | nil => rfl
  | cons s rest ih => simp [List.zip_cons_cons, List.filter, ih]

/-- Auxiliary: `setFirstMatching` preserves every login and name, only
touches students whose login matches, and changes at most one entry. -/
theorem setFirstMatching_frame (login : String) (p : Presence) :
    ∀ l : List Student,
      ((setFirstMatching l login p).1.map Student.login
        = l.map Student.login) ∧
      ((setFirstMatching l login p).1.map Student.name
        = l.map Student.name) ∧
      ((l.zip (setFirstMatching l login p).1).all
        (fun q => decide (q.2 = q.1 ∨ q.1.login = login)) = true) ∧
      (((l.zip (setFirstMatching l login p).1).filter
        (fun q => decide (q.1 ≠ q.2))).length ≤ 1) := by
  intro l
  induction l with
  | nil => exact ⟨rfl, rfl, rfl, by simp [setFirstMatching]⟩
  | cons s rest ih =>
    obtain ⟨ih1, ih2, ih3, ih4⟩ := ih
    by_cases hs : s.login = login
    · refine ⟨?_, ?_, ?_, ?_⟩
      · simp [setFirstMatching, hs, Student.set_presence]
      · simp [setFirstMatching, hs, Student.set_presence]
      · simp only [setFirstMatching, hs, if_pos]
        simp only [List.zip_cons_cons, List.all_cons, Bool.and_eq_true]
        exact ⟨by simp [hs], zip_self_all rest _ (fun x => by simp)⟩
      · simp only [setFirstMatching, hs, if_pos]
        rw [List.zip_cons_cons, List.filter_cons, zip_self_filter_ne]
        split <;> simp
    · refine ⟨?_, ?_, ?_, ?_⟩
      · simpa [setFirstMatching, hs] using ih1
      · simpa [setFirstMatching, hs] using ih2
      · simp only [setFirstMatching, hs, if_neg, not_false_iff]
        simp only [List.zip_cons_cons, List.all_cons, Bool.and_eq_true]
        exact ⟨by simp, ih3⟩
      · simp only [setFirstMatching, hs, if_neg, not_false_iff]
        simp only [List.zip_cons_cons, List.filter]
        have : (decide (¬(s = s))) = false := by simp
        rw [this]
        exact ih4

/-- Auxiliary: mapping a field left unchanged by `set_presence` over the
result of `setRemainingList` reads the original field values. -/
theorem setRemainingList_map (l : List Student) (p : Presence)
    (f : Student → String) (hf : ∀ s q, f (s.set_presence q) = f s) :
    (setRemainingList l p).map f = l.map f := by
  induction l with
  | nil => rfl
  | cons s rest ih =>
    simp only [setRemainingList, List.map_cons] at ih ⊢
    refine congrArg₂ List.cons ?_ ih
    cases s.presence <;> simp [hf]

/-- Claim C9: every roster mutator changes only presence fields — the
roster's length and every student's login and name are preserved by
`set_student_presence`, `set_all_students_presence` and
`set_remaining_students_presence`; moreover `set_student_presence`
touches only students whose login matches and modifies at most one
entry.  The present/missing/none/not-applicable wrappers are definable
instances of the three generic mutators (final conjuncts), so the frame
facts cover them as well. -/
theorem c9_mutators_frame (e : Event) (login : String) (p : Presence) :
    ((e.set_student_presence login p).1.students.map Student.login
      = e.students.map Student.login) ∧
    ((e.set_student_presence login p).1.students.map Student.name
      = e.students.map Student.name) ∧
    ((e.set_student_presence login p).1.students.length
      = e.students.length) ∧
    ((e.students.zip (e.set_student_presence login p).1.students).all
      (fun q => decide (q.2 = q.1 ∨ q.1.login = login)) = true) ∧
    (((e.students.zip (e.set_student_presence login p).1.students).filter
      (fun q => decide (q.1 ≠ q.2))).length ≤ 1) ∧
    ((e.set_all_students_presence p).students.map Student.login
      = e.students.map Student.login) ∧
    ((e.set_all_students_presence p).students.map Student.name
      = e.students.map Student.name) ∧
    ((e.set_all_students_presence p).students.length
      = e.students.length) ∧
    ((e.set_remaining_students_presence p).students.map Student.login
      = e.students.map Student.login) ∧
    ((e.set_remaining_students_presence p).students.map Student.name
      = e.students.map Student.name) ∧
    ((e.set_remaining_students_presence p).students.length
      = e.students.length) ∧
    (e.set_student_present login = e.set_student_presence login
      Presence.Present) ∧
    (e.set_student_missing login = e.set_student_presence login
      Presence.Missing) ∧
    (e.set_student_none login = e.set_student_presence login
      Presence.None) ∧
    (e.set_student_not_applicable login = e.set_student_presence login
      Presence.NotApplicable) ∧
    (e.set_all_students_present = e.set_all_students_presence
      Presence.Present) ∧
    (e.set_all_students_missing = e.set_all_students_presence
      Presence.Missing) ∧
    (e.set_all_students_none = e.set_all_students_presence
      Presence.None) ∧
    (e.set_all_students_not_applicable = e.set_all_students_presence
      Presence.NotApplicable) ∧
    (e.set_remaining_students_present = e.set_remaining_students_presence
      Presence.Present) ∧
    (e.set_remaining_students_missing = e.set_remaining_students_presence
      Presence.Missing) := by
  obtain ⟨h1, h2, h3, h4⟩ := setFirstMatching_frame login p e.students
  have hlen : (setFirstMatching e.students login p).1.length
      = e.students.length := by
    have := congrArg List.length h1
    simpa using this
  refine ⟨h1, h2, hlen, h3, h4, ?_, ?_, ?_, ?_, ?_, ?_,
    rfl, rfl, rfl, rfl, rfl, rfl, rfl, rfl, rfl, rfl⟩
  · simp only [Event.set_all_students_presence, List.map_map]
    rfl
  · simp only [Event.set_all_students_presence, List.map_map]
    rfl
  · simp [Event.set_all_students_presence]
  · exact setRemainingList_map e.students p Student.login (fun s q => rfl)
  · exact setRemainingList_map e.students p Student.name (fun s q => rfl)
  · simp [Event.set_remaining_students_presence, setRemainingList]

end Epitok
